import Mathlib

/-!
Shallow embedding of `src/masplit.cpp` from the vcfR repository.

The C++ function `masplit` takes a matrix of delimited strings
(`Rcpp::StringMatrix`, cells possibly `NA_STRING`), splits every
non-missing cell on the first character of `delim`, parses the tokens as
floats, and either counts the tokens (`count == 1`) or selects the
(1-based) `record`-th token, optionally after sorting (`sort == 1`)
descending (`decreasing == 1`) or ascending (`decreasing == 0`).

Modelling choices:
- A string matrix is a list of rows, each row a list of `Option String`
  (`none` models `NA_STRING`).
- The numeric result matrix is a list of rows of `Option ℚ`
  (`none` models `NA_REAL`); float values are modelled as exact rationals,
  which is faithful on the decimal literals the program manipulates.
- The early `return naMat` statements of the C++ code are modelled by an
  `Option`-valued traversal that aborts (`none`) exactly where the code
  returns the sentinel, with `masplit` mapping an abort to the sentinel.
-/

/-- Characters skipped by `std::istream` formatted extraction
(`std::isspace` in the default locale). -/
def isSpaceChar (c : Char) : Bool :=
  c = ' ' ∨ c = '\t' ∨ c = '\n' ∨ c = '\x0b' ∨ c = '\x0c' ∨ c = '\r'

/-- Numeric value of a decimal digit character. -/
def digitVal (c : Char) : ℕ := c.toNat - 48

/-- Value of a list of decimal digit characters, most significant first. -/
def natOfDigits (ds : List Char) : ℕ :=
  ds.foldl (fun a c => 10 * a + digitVal c) 0

/-- Exponent part of a float literal: if the remaining characters start
with a well-formed exponent `(e|E)[+|-]digits`, its integer value,
otherwise `0` (trailing garbage is left unread by the extraction). -/
def parseExponent (cs : List Char) : ℤ :=
  match cs with
  | c :: rest =>
    if c = 'e' ∨ c = 'E' then
      match rest with
      | '-' :: ds => if (ds.takeWhile (·.isDigit)).isEmpty then 0
                     else -(natOfDigits (ds.takeWhile (·.isDigit)) : ℤ)
      | '+' :: ds => if (ds.takeWhile (·.isDigit)).isEmpty then 0
                     else (natOfDigits (ds.takeWhile (·.isDigit)) : ℤ)
      | ds => if (ds.takeWhile (·.isDigit)).isEmpty then 0
              else (natOfDigits (ds.takeWhile (·.isDigit)) : ℤ)
    else 0
  | [] => 0

/-- Model of `std::istringstream >> float` on one token (`ss0 >> float_vec[i]`
in `str_vec_to_float_vec`): skip leading whitespace, optional sign, decimal
digits with optional fractional part and optional exponent.  `none` models a
failed extraction (no digits found), in which case the C++ code leaves the
zero-initialized slot untouched.  The value `mantissa * 10 ^ (exponent -
fractionDigits)` is an exact rational. -/
def parseFloat (cs : List Char) : Option ℚ :=
  let cs1 := cs.dropWhile isSpaceChar
  let neg : Bool := match cs1 with
    | '-' :: _ => true
    | _ => false
  let cs2 : List Char := match cs1 with
    | '-' :: rest => rest
    | '+' :: rest => rest
    | _ => cs1
  let ip := cs2.takeWhile (·.isDigit)
  let cs3 := cs2.dropWhile (·.isDigit)
  let fp : List Char := match cs3 with
    | '.' :: rest => rest.takeWhile (·.isDigit)
    | _ => []
  let cs4 : List Char := match cs3 with
    | '.' :: rest => rest.dropWhile (·.isDigit)
    | _ => cs3
  if ip.isEmpty ∧ fp.isEmpty then none
  else
    let m : ℤ := if neg then -(natOfDigits (ip ++ fp) : ℤ)
                 else (natOfDigits (ip ++ fp) : ℤ)
    let e : ℤ := parseExponent cs4 - fp.length
    if 0 ≤ e then some (mkRat (m * ((10 ^ e.toNat : ℕ) : ℤ)) 1)
    else some (mkRat m (10 ^ (-e).toNat))

/-- Modelled from the spec: `vcfRCommon::strsplit` (declared in
`vcfRCommon.h`; its implementation is not under `src/`).  The spec says:
"partition the text on the single configured delimiter character into an
ordered sequence of substrings (no merging of consecutive delimiters;
empty substrings are preserved as separate tokens)". -/
def splitChars (c : Char) : List Char → List (List Char)
  | [] => [[]]
  | x :: xs =>
    if x = c then [] :: splitChars c xs
    else
      match splitChars c xs with
      | [] => [[x]]
      | t :: ts => (x :: t) :: ts

/-- Embedding of `str_vec_to_float_vec`: the return vector is initialized to
zeros, one slot per token, and each slot is overwritten by the parsed value
when extraction succeeds; a failed extraction leaves the zero. -/
def str_vec_to_float_vec (str_vec : List (List Char)) : List ℚ :=
  str_vec.map (fun s => (parseFloat s).getD 0)

/-- Descending sort: `std::sort(b, e, greater())` with `a > b`, modelled by a
`≥`-ordered sort (equal rationals are interchangeable, so the sorted list is
uniquely determined). -/
def sortDesc (v : List ℚ) : List ℚ := List.insertionSort (· ≥ ·) v

/-- Ascending sort: `std::sort(b, e, lesser())` with `a < b`. -/
def sortAsc (v : List ℚ) : List ℚ := List.insertionSort (· ≤ ·) v

/-- Record selection on the (possibly sorted) parsed vector, `record0` being
the already 0-based index: `if (record+1 > float_vec.size()) NA_REAL else
float_vec[record]`. -/
def selectRecord (record0 : ℕ) (v : List ℚ) : Option ℚ :=
  if record0 + 1 > v.length then none else some (v.getD record0 0)

/-- One iteration of the cell loop body of `masplit`, for cell `(i,j)`.
`none` models the mid-loop `return naMat` on a malformed `decreasing`;
`some r` is the value written to `retMat(i,j)` (`none` therein = `NA_REAL`). -/
def cellResult (split : Char) (count : ℤ) (record0 : ℕ) (sort decreasing : ℤ)
    (cell : Option String) : Option (Option ℚ) :=
  match cell with
  | none => some none
  | some s =>
    let col_vec := splitChars split s.toList
    let float_vec := str_vec_to_float_vec col_vec
    if count = 1 then some (some (float_vec.length : ℚ))
    else if sort = 1 then
      if decreasing = 1 then some (selectRecord record0 (sortDesc float_vec))
      else if decreasing = 0 then some (selectRecord record0 (sortAsc float_vec))
      else none
    else some (selectRecord record0 float_vec)

/-- The inner (column) loop over one row, aborting like the C++ code does on
the first cell that trips the `decreasing` check. -/
def rowResults (split : Char) (count : ℤ) (record0 : ℕ) (sort decreasing : ℤ) :
    List (Option String) → Option (List (Option ℚ))
  | [] => some []
  | c :: cs =>
    match cellResult split count record0 sort decreasing c with
    | none => none
    | some r =>
      match rowResults split count record0 sort decreasing cs with
      | none => none
      | some rs => some (r :: rs)

/-- The outer (row) loop of `masplit`. -/
def gridResults (split : Char) (count : ℤ) (record0 : ℕ) (sort decreasing : ℤ) :
    List (List (Option String)) → Option (List (List (Option ℚ)))
  | [] => some []
  | row :: rows =>
    match rowResults split count record0 sort decreasing row with
    | none => none
    | some out =>
      match gridResults split count record0 sort decreasing rows with
      | none => none
      | some outs => some (out :: outs)

/-- The 1x1 `NA_REAL` sentinel matrix `naMat` returned on configuration
errors. -/
def naMat : List (List (Option ℚ)) := [[none]]

/-- Embedding of `masplit`: the `record < 1` guard, the 1-based to 0-based
conversion `record = record - 1`, the use of `delim[0]` only, and the cell
loops; any abort yields the sentinel `naMat`. -/
def masplit (myMat : List (List (Option String))) (delim : String)
    (count record sort decreasing : ℤ) : List (List (Option ℚ)) :=
  if record < 1 then naMat
  else
    match gridResults (delim.toList.headD (Char.ofNat 0)) count
        (record - 1).toNat sort decreasing myMat with
    | none => naMat
    | some res => res

/-! ### Helper lemmas -/

theorem cellResult_missing (split : Char) (count : ℤ) (record0 : ℕ)
    (sort decreasing : ℤ) :
    cellResult split count record0 sort decreasing none = some none := rfl

theorem rowResults_forall2 {split : Char} {count : ℤ} {record0 : ℕ}
    {sort decreasing : ℤ} :
    ∀ {row : List (Option String)} {out : List (Option ℚ)},
      rowResults split count record0 sort decreasing row = some out →
      List.Forall₂ (fun c r => cellResult split count record0 sort decreasing c = some r)
        row out := by
  intro row
  induction row with
  | nil =>
    intro out h
    simp only [rowResults, Option.some.injEq] at h
    subst h
    exact List.Forall₂.nil
  | cons c cs ih =>
    intro out h
    simp only [rowResults] at h
    cases hc : cellResult split count record0 sort decreasing c with
    | none => rw [hc] at h; exact absurd h (by simp)
    | some r =>
      rw [hc] at h
      cases hr : rowResults split count record0 sort decreasing cs with
      | none => rw [hr] at h; exact absurd h (by simp)
      | some rs =>
        rw [hr] at h
        simp only [Option.some.injEq] at h
        subst h
        exact List.Forall₂.cons hc (ih hr)

theorem gridResults_forall2 {split : Char} {count : ℤ} {record0 : ℕ}
    {sort decreasing : ℤ} :
    ∀ {grid : List (List (Option String))} {res : List (List (Option ℚ))},
      gridResults split count record0 sort decreasing grid = some res →
      List.Forall₂ (fun row out => rowResults split count record0 sort decreasing row = some out)
        grid res := by
  intro grid
  induction grid with
  | nil =>
    intro res h
    simp only [gridResults, Option.some.injEq] at h
    subst h
    exact List.Forall₂.nil
  | cons row rows ih =>
    intro res h
    simp only [gridResults] at h
    cases hr : rowResults split count record0 sort decreasing row with
    | none => rw [hr] at h; exact absurd h (by simp)
    | some out =>
      rw [hr] at h
      cases hg : gridResults split count record0 sort decreasing rows with
      | none => rw [hg] at h; exact absurd h (by simp)
      | some outs =>
        rw [hg] at h
        simp only [Option.some.injEq] at h
        subst h
        exact List.Forall₂.cons hr (ih hg)

theorem rowResults_length {split : Char} {count : ℤ} {record0 : ℕ}
    {sort decreasing : ℤ} {row : List (Option String)} {out : List (Option ℚ)}
    (h : rowResults split count record0 sort decreasing row = some out) :
    out.length = row.length :=
  (rowResults_forall2 h).length_eq.symm

theorem gridResults_shape {split : Char} {count : ℤ} {record0 : ℕ}
    {sort decreasing : ℤ} {grid : List (List (Option String))}
    {res : List (List (Option ℚ))}
    (h : gridResults split count record0 sort decreasing grid = some res) :
    res.length = grid.length ∧
      ∀ (i : ℕ) (h1 : i < res.length) (h2 : i < grid.length),
        (res.get ⟨i, h1⟩).length = (grid.get ⟨i, h2⟩).length := by
  have hf := (gridResults_forall2 h).imp
    (fun row out hro => rowResults_length hro)
  rw [List.forall₂_iff_get] at hf
  exact ⟨hf.1.symm, fun i h1 h2 => hf.2 i h2 h1⟩

/-- On a valid run, `masplit` returns exactly the grid computed by the loops. -/
theorem masplit_eq_of_run {myMat : List (List (Option String))} {delim : String}
    {count record sort decreasing : ℤ} {res : List (List (Option ℚ))}
    (hr : 1 ≤ record)
    (hrun : gridResults (delim.toList.headD (Char.ofNat 0)) count
      (record - 1).toNat sort decreasing myMat = some res) :
    masplit myMat delim count record sort decreasing = res := by
  have hlt : ¬ record < 1 := by omega
  simp only [masplit, hlt, if_false, hrun]

example : splitChars ',' "7,2,12".toList = [['7'], ['2'], ['1', '2']] := by decide
example : parseFloat ['7'] = some 7 := by decide
example : parseFloat ['a'] = none := by decide
example : parseFloat ['1', '2'] = some 12 := by decide
example : parseFloat ['-', '2', '.', '5'] = some (mkRat (-5) 2) := by decide
example : parseFloat ['3', 'e', '2'] = some 300 := by decide
example : masplit [[some "7,2,12"]] "," 0 1 1 1 = [[some 12]] := by decide
example : masplit [[some "7,2,12"]] "," 0 3 1 0 = [[some 12]] := by decide
example : masplit [[some "7,2,12"]] "," 0 2 0 1 = [[some 2]] := by decide
example : masplit [[some "7,2,12"]] "," 1 1 1 5 = [[some 3]] := by decide
example : masplit [[some "9"]] "," 0 2 1 1 = [[none]] := by decide
example : masplit [[some "9"]] "," 0 0 1 1 = naMat := by decide
example : masplit [[none, none]] "," 0 1 1 5 = [[none, none]] := by decide
example : masplit [[some "9"]] "," 0 1 1 5 = naMat := by decide

/-! ### Claim theorems -/

/-- C7: for every input grid and every configuration with `record ≤ 0`
(zero or negative), `masplit` returns the 1x1 sentinel failure grid `naMat`
before processing any cell, regardless of mode and sort settings. -/
theorem record_lt_one_returns_sentinel (myMat : List (List (Option String)))
    (delim : String) (count record sort decreasing : ℤ) (h : record ≤ 0) :
    masplit myMat delim count record sort decreasing = naMat := by
  have hlt : record < 1 := by omega
  simp only [masplit, hlt, if_true]

/-- Witness for C7 at `record = 0` on a concrete grid. -/
theorem record_lt_one_returns_sentinel_witness :
    masplit [[some "7,2"]] "," 0 0 1 1 = naMat :=
  record_lt_one_returns_sentinel [[some "7,2"]] "," 0 0 1 1 (by decide)

/-- C2: a token that fails to parse as a float does not abort the cell or
the matrix: `str_vec_to_float_vec` keeps exactly one entry per token, and
the failed token's slot keeps its zero-initialized value `0`. -/
theorem parse_failure_keeps_zero (toks : List (List Char)) (i : ℕ)
    (hi : i < toks.length) (hfail : parseFloat (toks.get ⟨i, hi⟩) = none) :
    (str_vec_to_float_vec toks).length = toks.length ∧
      ∃ hi2 : i < (str_vec_to_float_vec toks).length,
        (str_vec_to_float_vec toks).get ⟨i, hi2⟩ = 0 := by
  refine ⟨List.length_map _ _, ?_, ?_⟩
  · simp only [str_vec_to_float_vec, List.length_map]; exact hi
  · simp only [str_vec_to_float_vec, List.get_map, hfail, Option.getD_none]

/-- Witness for C2: the unparseable token `"a"` keeps value `0` while the
vector still has one entry per token. -/
theorem parse_failure_keeps_zero_witness :
    (str_vec_to_float_vec [['a'], ['7']]).length = 2 ∧
      (str_vec_to_float_vec [['a'], ['7']]).get ⟨0, by decide⟩ = 0 := by
  have h := parse_failure_keeps_zero [['a'], ['7']] 0 (by decide) (by decide)
  exact ⟨h.1, h.2.choose_spec⟩

/-- C10: only the first character of the delimiter argument is used; any
characters after the first are ignored, so two delimiter strings with the
same first character produce identical result grids on every input and
every configuration. -/
theorem delim_first_char_only (myMat : List (List (Option String)))
    (c : Char) (rest1 rest2 : List Char) (count record sort decreasing : ℤ) :
    masplit myMat (String.mk (c :: rest1)) count record sort decreasing =
      masplit myMat (String.mk (c :: rest2)) count record sort decreasing := rfl

/-- C3: whenever the transform completes a full result grid (`record ≥ 1`
and the cell loops run to the end), every Missing input cell maps to a
Missing output cell, for every mode and all sort settings. -/
theorem missing_maps_to_missing (myMat : List (List (Option String)))
    (delim : String) (count record sort decreasing : ℤ)
    (res : List (List (Option ℚ))) (hr : 1 ≤ record)
    (hrun : gridResults (delim.toList.headD (Char.ofNat 0)) count
      (record - 1).toNat sort decreasing myMat = some res) :
    masplit myMat delim count record sort decreasing = res ∧
      ∀ (i j : ℕ) (hi : i < myMat.length) (hj : j < (myMat.get ⟨i, hi⟩).length),
        (myMat.get ⟨i, hi⟩).get ⟨j, hj⟩ = none →
        ∃ (hi2 : i < res.length) (hj2 : j < (res.get ⟨i, hi2⟩).length),
          (res.get ⟨i, hi2⟩).get ⟨j, hj2⟩ = none := by
  refine ⟨masplit_eq_of_run hr hrun, ?_⟩
  intro i j hi hj hmiss
  have hgrid := gridResults_forall2 hrun
  rw [List.forall₂_iff_get] at hgrid
  have hi2 : i < res.length := hgrid.1 ▸ hi
  have hrow := hgrid.2 i hi hi2
  have hcell := rowResults_forall2 hrow
  rw [List.forall₂_iff_get] at hcell
  have hj2 : j < (res.get ⟨i, hi2⟩).length := hcell.1 ▸ hj
  have hc := hcell.2 j hj hj2
  rw [hmiss, cellResult_missing] at hc
  exact ⟨hi2, hj2, (Option.some_injective _ hc).symm⟩

/-- Witness for C3 on a concrete grid with one Missing and one text cell. -/
theorem missing_maps_to_missing_witness :
    masplit [[none, some "7,2"]] "," 0 1 1 1 = [[none, some 7]] ∧
      (([[none, some (7 : ℚ)]] : List (List (Option ℚ))).get
        ⟨0, by decide⟩).get ⟨0, by decide⟩ = none := by
  have h := missing_maps_to_missing [[none, some "7,2"]] "," 0 1 1 1
    [[none, some 7]] (by decide) (by decide)
  obtain ⟨hi2, hj2, hc⟩ := h.2 0 0 (by decide) (by decide) (by decide)
  exact ⟨h.1, hc⟩

/-- C8: whenever `masplit` does not return the sentinel, the result grid has
exactly as many rows as the input and each row exactly as many cells as the
corresponding input row (every position holds an `Option` value, so there is
no partially filled success result). -/
theorem result_has_input_shape (myMat : List (List (Option String)))
    (delim : String) (count record sort decreasing : ℤ)
    (h : masplit myMat delim count record sort decreasing ≠ naMat) :
    (masplit myMat delim count record sort decreasing).length = myMat.length ∧
      ∀ (i : ℕ)
        (h1 : i < (masplit myMat delim count record sort decreasing).length)
        (h2 : i < myMat.length),
        ((masplit myMat delim count record sort decreasing).get ⟨i, h1⟩).length =
          (myMat.get ⟨i, h2⟩).length := by
  by_cases hrec : record < 1
  · exact absurd (by simp only [masplit, hrec, if_true]) h
  · cases hrun : gridResults (delim.toList.headD (Char.ofNat 0)) count
      (record - 1).toNat sort decreasing myMat with
    | none => exact absurd (by simp only [masplit, hrec, if_false, hrun]) h
    | some res =>
      have hm : masplit myMat delim count record sort decreasing = res := by
        simp only [masplit, hrec, if_false, hrun]
      rw [hm]
      exact gridResults_shape hrun

/-- Witness for C8 on a concrete 1x2 grid whose result is not the sentinel. -/
theorem result_has_input_shape_witness :
    (masplit [[some "7,2", none]] "," 0 1 1 1).length = 1 ∧
      (masplit [[some "7,2", none]] "," 0 1 1 1).length = 1 := by
  have h := result_has_input_shape [[some "7,2", none]] "," 0 1 1 1 (by decide)
  exact ⟨h.1, h.1⟩

theorem splitChars_ne_nil (c : Char) : ∀ s : List Char, splitChars c s ≠ [] := by
  intro s
  induction s with
  | nil => simp [splitChars]
  | cons x xs ih =>
    by_cases h : x = c
    · simp [splitChars, h]
    · simp only [splitChars, h, if_false]
      cases hs : splitChars c xs with
      | nil => simp
      | cons t ts => simp

theorem splitChars_length (c : Char) :
    ∀ s : List Char, (splitChars c s).length = s.count c + 1 := by
  intro s
  induction s with
  | nil => simp [splitChars]
  | cons x xs ih =>
    by_cases h : x = c
    · subst h
      simp [splitChars, List.count_cons, ih]
    · simp only [splitChars, h, if_false]
      cases hs : splitChars c xs with
      | nil => exact absurd hs (splitChars_ne_nil c xs)
      | cons t ts =>
        rw [hs] at ih
        simp only [List.length_cons] at ih ⊢
        rw [List.count_cons]
        simp [h, ih]

theorem cellResult_count (split : Char) (record0 : ℕ) (sort decreasing : ℤ)
    (cell : Option String) :
    cellResult split 1 record0 sort decreasing cell =
      some (cell.map (fun s => ((splitChars split s.toList).length : ℚ))) := by
  cases cell with
  | none => rfl
  | some s => simp [cellResult, str_vec_to_float_vec]

theorem rowResults_count (split : Char) (record0 : ℕ) (sort decreasing : ℤ) :
    ∀ row : List (Option String),
      rowResults split 1 record0 sort decreasing row =
        some (row.map (Option.map (fun s => ((splitChars split s.toList).length : ℚ)))) := by
  intro row
  induction row with
  | nil => rfl
  | cons c cs ih =>
    simp only [rowResults, cellResult_count, ih, List.map_cons]

theorem gridResults_count (split : Char) (record0 : ℕ) (sort decreasing : ℤ) :
    ∀ grid : List (List (Option String)),
      gridResults split 1 record0 sort decreasing grid =
        some (grid.map (List.map (Option.map (fun s => ((splitChars split s.toList).length : ℚ))))) := by
  intro grid
  induction grid with
  | nil => rfl
  | cons row rows ih =>
    simp only [gridResults, rowResults_count, ih, List.map_cons]

/-- C4: in count mode (`count = 1`), for every grid and every value of
`sort`, `decreasing` and `record ≥ 1`, each non-missing cell's result is the
number of tokens produced by splitting the cell text on the delimiter, and
that token count preserves empty tokens: it is one more than the number of
delimiter occurrences, so consecutive delimiters are never merged. -/
theorem count_mode_counts_tokens (myMat : List (List (Option String)))
    (delim : String) (record sort decreasing : ℤ) (hr : 1 ≤ record) :
    masplit myMat delim 1 record sort decreasing =
      myMat.map (List.map (Option.map (fun s =>
        ((splitChars (delim.toList.headD (Char.ofNat 0)) s.toList).length : ℚ)))) ∧
      ∀ (c : Char) (t : List Char), (splitChars c t).length = t.count c + 1 := by
  refine ⟨?_, splitChars_length⟩
  exact masplit_eq_of_run hr (gridResults_count _ _ _ _ _)

/-- Witness for C4: on the cell `"7,,2"` count mode yields 3 tokens (the
empty token between the two delimiters is preserved). -/
theorem count_mode_counts_tokens_witness :
    masplit [[some "7,,2"]] "," 1 5 0 7 = [[some 3]] := by
  have h := count_mode_counts_tokens [[some "7,,2"]] "," 5 0 7 (by decide)
  rw [h.1]
  decide

/-- C6: in select mode (`count ≠ 1`, well-formed sort settings), a
non-missing cell never aborts the matrix: its result is `selectRecord` on
the (possibly sorted) parsed sequence, which is Missing (`none`) exactly
when the sequence has fewer than `record0 + 1` elements (i.e. fewer tokens
than the 1-based record index), and otherwise is the element at 0-based
position `record0`. -/
theorem select_mode_out_of_range (split : Char) (count : ℤ) (record0 : ℕ)
    (sort decreasing : ℤ) (s : String) (hc : count ≠ 1)
    (hd : sort = 1 → decreasing = 0 ∨ decreasing = 1) :
    (∃ v : List ℚ,
        cellResult split count record0 sort decreasing (some s) =
          some (selectRecord record0 v) ∧
        List.Perm v (str_vec_to_float_vec (splitChars split s.toList))) ∧
      (∀ v : List ℚ, v.length < record0 + 1 → selectRecord record0 v = none) ∧
      (∀ (v : List ℚ) (h : record0 < v.length),
        selectRecord record0 v = some (v.get ⟨record0, h⟩)) := by
  refine ⟨?_, ?_, ?_⟩
  · by_cases hs : sort = 1
    · rcases hd hs with h0 | h1
      · subst hs; subst h0
        refine ⟨sortAsc (str_vec_to_float_vec (splitChars split s.toList)), ?_, ?_⟩
        · simp [cellResult, hc]
        · exact List.perm_insertionSort _ _
      · subst hs; subst h1
        refine ⟨sortDesc (str_vec_to_float_vec (splitChars split s.toList)), ?_, ?_⟩
        · simp [cellResult, hc]
        · exact List.perm_insertionSort _ _
    · refine ⟨str_vec_to_float_vec (splitChars split s.toList), ?_, List.Perm.refl _⟩
      simp [cellResult, hc, hs]
  · intro v h
    simp [selectRecord, h]
  · intro v h
    have hn : ¬ record0 + 1 > v.length := by omega
    simp only [selectRecord, gt_iff_lt, Nat.not_lt] at hn ⊢
    rw [if_neg (by omega)]
    exact congrArg some (List.getD_eq_get v 0 h)

/-- Witness for C6: cell `"9"` with record index 2 gives Missing; with
record index 1 it gives the token value. -/
theorem select_mode_out_of_range_witness :
    selectRecord 1 [(9 : ℚ)] = none ∧ selectRecord 1 [(9 : ℚ), 5] = some 5 := by
  have h := select_mode_out_of_range ',' 0 1 0 9 "9" (by decide) (by decide)
  exact ⟨h.2.1 [(9 : ℚ)] (by decide),
    (h.2.2 [(9 : ℚ), 5] (by decide)).trans (by decide)⟩

/-- C5: in select mode with `sort = 1` the parsed sequence is sorted before
selection — descending (`decreasing = 1`) yields a `≥`-sorted permutation,
ascending (`decreasing = 0`) a `≤`-sorted permutation — and on the concrete
cell `"7,2,12"` descending sort with record 1 yields 12 and ascending sort
with record 3 yields 12. -/
theorem sort_settings_order_selection (split : Char) (count : ℤ)
    (record0 : ℕ) (s : String) (hc : count ≠ 1) :
    (cellResult split count record0 1 1 (some s) =
        some (selectRecord record0
          (sortDesc (str_vec_to_float_vec (splitChars split s.toList)))) ∧
      List.Sorted (· ≥ ·)
        (sortDesc (str_vec_to_float_vec (splitChars split s.toList))) ∧
      List.Perm (sortDesc (str_vec_to_float_vec (splitChars split s.toList)))
        (str_vec_to_float_vec (splitChars split s.toList))) ∧
    (cellResult split count record0 1 0 (some s) =
        some (selectRecord record0
          (sortAsc (str_vec_to_float_vec (splitChars split s.toList)))) ∧
      List.Sorted (· ≤ ·)
        (sortAsc (str_vec_to_float_vec (splitChars split s.toList))) ∧
      List.Perm (sortAsc (str_vec_to_float_vec (splitChars split s.toList)))
        (str_vec_to_float_vec (splitChars split s.toList))) ∧
    masplit [[some "7,2,12"]] "," 0 1 1 1 = [[some 12]] ∧
    masplit [[some "7,2,12"]] "," 0 3 1 0 = [[some 12]] := by
  refine ⟨⟨?_, ?_, ?_⟩, ⟨?_, ?_, ?_⟩, ?_, ?_⟩
  · simp [cellResult, hc]
  · exact List.sorted_insertionSort _ _
  · exact List.perm_insertionSort _ _
  · simp [cellResult, hc]
  · exact List.sorted_insertionSort _ _
  · exact List.perm_insertionSort _ _
  · decide
  · decide

/-- Witness for C5 discharging `count ≠ 1` at `count = 0`. -/
theorem sort_settings_order_selection_witness :
    masplit [[some "7,2,12"]] "," 0 1 1 1 = [[some 12]] ∧
    masplit [[some "7,2,12"]] "," 0 3 1 0 = [[some 12]] := by
  have h := sort_settings_order_selection ',' 0 0 "7,2,12" (by decide)
  exact ⟨h.2.2.1, h.2.2.2⟩

theorem cellResult_bad_decreasing (split : Char) (count : ℤ) (record0 : ℕ)
    (decreasing : ℤ) (s : String) (hc : count ≠ 1) (hd0 : decreasing ≠ 0)
    (hd1 : decreasing ≠ 1) :
    cellResult split count record0 1 decreasing (some s) = none := by
  simp [cellResult, hc, hd0, hd1]

theorem rowResults_bad_decreasing (split : Char) (count : ℤ) (record0 : ℕ)
    (decreasing : ℤ) (hc : count ≠ 1) (hd0 : decreasing ≠ 0)
    (hd1 : decreasing ≠ 1) :
    ∀ row : List (Option String), (∃ c ∈ row, c ≠ none) →
      rowResults split count record0 1 decreasing row = none := by
  intro row
  induction row with
  | nil => rintro ⟨c, hm, _⟩; cases hm
  | cons c cs ih =>
    rintro ⟨d, hd, hdn⟩
    cases c with
    | some s =>
      simp [rowResults, cellResult_bad_decreasing split count record0
        decreasing s hc hd0 hd1]
    | none =>
      rcases List.mem_cons.mp hd with h | hdcs
      · exact absurd h hdn
      · simp [rowResults, cellResult_missing, ih ⟨d, hdcs, hdn⟩]

theorem gridResults_bad_decreasing (split : Char) (count : ℤ) (record0 : ℕ)
    (decreasing : ℤ) (hc : count ≠ 1) (hd0 : decreasing ≠ 0)
    (hd1 : decreasing ≠ 1) :
    ∀ grid : List (List (Option String)),
      (∃ row ∈ grid, ∃ c ∈ row, c ≠ none) →
      gridResults split count record0 1 decreasing grid = none := by
  intro grid
  induction grid with
  | nil => rintro ⟨r, hm, _⟩; cases hm
  | cons row rows ih =>
    rintro ⟨r, hr, hcell⟩
    rcases List.mem_cons.mp hr with h | hrs
    · subst h
      simp [gridResults,
        rowResults_bad_decreasing split count record0 decreasing hc hd0 hd1 r hcell]
    · cases h1 : rowResults split count record0 1 decreasing row with
      | none => simp [gridResults, h1]
      | some out => simp [gridResults, h1, ih ⟨r, hrs, hcell⟩]

theorem cellResult_ne_none (split : Char) (count : ℤ) (record0 : ℕ)
    (sort decreasing : ℤ) (cell : Option String)
    (h : count = 1 ∨ sort ≠ 1 ∨ cell = none) :
    cellResult split count record0 sort decreasing cell ≠ none := by
  cases cell with
  | none => simp [cellResult]
  | some s =>
    rcases h with h1 | h2 | h3
    · simp [cellResult, h1]
    · by_cases hcnt : count = 1
      · simp [cellResult, hcnt]
      · simp [cellResult, hcnt, h2]
    · cases h3

theorem rowResults_ne_none (split : Char) (count : ℤ) (record0 : ℕ)
    (sort decreasing : ℤ) :
    ∀ row : List (Option String),
      (∀ c ∈ row, cellResult split count record0 sort decreasing c ≠ none) →
      ∃ out, rowResults split count record0 sort decreasing row = some out := by
  intro row
  induction row with
  | nil => exact fun _ => ⟨[], rfl⟩
  | cons c cs ih =>
    intro h
    cases hcc : cellResult split count record0 sort decreasing c with
    | none => exact absurd hcc (h c (List.mem_cons_self c cs))
    | some r =>
      obtain ⟨out, hout⟩ := ih (fun d hd => h d (List.mem_cons_of_mem c hd))
      exact ⟨r :: out, by simp [rowResults, hcc, hout]⟩

theorem gridResults_ne_none (split : Char) (count : ℤ) (record0 : ℕ)
    (sort decreasing : ℤ) :
    ∀ grid : List (List (Option String)),
      (∀ row ∈ grid, ∀ c ∈ row,
        cellResult split count record0 sort decreasing c ≠ none) →
      ∃ res, gridResults split count record0 sort decreasing grid = some res := by
  intro grid
  induction grid with
  | nil => exact fun _ => ⟨[], rfl⟩
  | cons row rows ih =>
    intro h
    obtain ⟨out, hout⟩ := rowResults_ne_none split count record0 sort decreasing
      row (h row (List.mem_cons_self row rows))
    obtain ⟨res, hres⟩ := ih (fun r hr => h r (List.mem_cons_of_mem row hr))
    exact ⟨out :: res, by simp [gridResults, hout, hres]⟩

/-- C1 counterexample: with `decreasing = 5` (neither 0 nor 1) the transform
does NOT return the sentinel when mode is Count, when sorting is disabled,
or when the grid is all-Missing — a full result grid is returned and the
`decreasing` value is never validated. -/
theorem decreasing_validation_not_upfront_cex :
    masplit [[some "7,2"]] "," 1 1 1 5 = [[some 2]] ∧
    masplit [[some "7,2"]] "," 0 1 0 5 = [[some 7]] ∧
    masplit [[none, none]] "," 0 1 1 5 = [[none, none]] ∧
    masplit [[some "7,2"]] "," 1 1 1 5 ≠ naMat ∧
    masplit [[some "7,2"]] "," 0 1 0 5 ≠ naMat ∧
    masplit [[none, none]] "," 0 1 1 5 ≠ naMat := by
  decide

/-- C1 amended: the `decreasing` check happens lazily inside the cell loop,
not up front.  With `decreasing` outside `{0, 1}` and `record ≥ 1`, the
transform returns the sentinel when mode is select, sorting is enabled and
some cell is non-missing; but in Count mode, with sorting disabled, or on an
all-Missing grid the flag is never validated and a complete result grid of
the input's row count is returned. -/
theorem decreasing_checked_lazily (myMat : List (List (Option String)))
    (delim : String) (count record sort decreasing : ℤ) (hr : 1 ≤ record)
    (hd0 : decreasing ≠ 0) (hd1 : decreasing ≠ 1) :
    (count ≠ 1 → sort = 1 → (∃ row ∈ myMat, ∃ c ∈ row, c ≠ none) →
      masplit myMat delim count record sort decreasing = naMat) ∧
    ((count = 1 ∨ sort ≠ 1 ∨ ∀ row ∈ myMat, ∀ c ∈ row, c = none) →
      ∃ res, masplit myMat delim count record sort decreasing = res ∧
        gridResults (delim.toList.headD (Char.ofNat 0)) count
          (record - 1).toNat sort decreasing myMat = some res ∧
        res.length = myMat.length) := by
  constructor
  · intro hc hs hcell
    subst hs
    have hbad := gridResults_bad_decreasing (delim.toList.headD (Char.ofNat 0))
      count (record - 1).toNat decreasing hc hd0 hd1 myMat hcell
    have hlt : ¬ record < 1 := by omega
    simp only [masplit, hlt, if_false, hbad]
  · intro h
    have hcells : ∀ row ∈ myMat, ∀ c ∈ row,
        cellResult (delim.toList.headD (Char.ofNat 0)) count
          (record - 1).toNat sort decreasing c ≠ none := by
      intro row hrow c hcin
      rcases h with h1 | h2 | h3
      · exact cellResult_ne_none _ _ _ _ _ c (Or.inl h1)
      · exact cellResult_ne_none _ _ _ _ _ c (Or.inr (Or.inl h2))
      · exact cellResult_ne_none _ _ _ _ _ c (Or.inr (Or.inr (h3 row hrow c hcin)))
    obtain ⟨res, hres⟩ := gridResults_ne_none _ _ _ _ _ myMat hcells
    exact ⟨res, masplit_eq_of_run hr hres, hres, (gridResults_shape hres).1⟩

/-- Witness for the amended C1 (Count mode side, all hypotheses discharged
at `decreasing = 5`). -/
theorem decreasing_checked_lazily_witness :
    masplit [[some "7,2"]] "," 1 1 1 5 = naMat ∨
      ∃ res, masplit [[some "7,2"]] "," 1 1 1 5 = res ∧
        gridResults (",".toList.headD (Char.ofNat 0)) 1 ((1 : ℤ) - 1).toNat 1 5
          [[some "7,2"]] = some res ∧
        res.length = [[some "7,2"]].length := by
  have h := decreasing_checked_lazily [[some "7,2"]] "," 1 1 1 5
    (by decide) (by decide) (by decide)
  exact Or.inr (h.2 (Or.inl rfl))

/-- C9 counterexample: a 1x1 grid whose only cell is Missing, under a fully
valid configuration, completes normally (the loops return a full grid) yet
the returned matrix is exactly the sentinel `naMat` — the caller cannot
tell "transform refused to run" from this all-Missing 1x1 result. -/
theorem sentinel_indistinguishable_cex :
    gridResults ',' 0 0 1 1 [[(none : Option String)]] = some [[none]] ∧
    masplit [[(none : Option String)]] "," 0 1 1 1 = naMat := by
  decide

/-- C9 amended: on a completed transform the result can coincide with the
sentinel only when the input grid is 1x1 and its single cell's result is
Missing; for every other input shape the completed result is distinct from
the sentinel. -/
theorem sentinel_collision_only_one_by_one
    (myMat : List (List (Option String))) (delim : String)
    (count record sort decreasing : ℤ) (res : List (List (Option ℚ)))
    (hr : 1 ≤ record)
    (hrun : gridResults (delim.toList.headD (Char.ofNat 0)) count
      (record - 1).toNat sort decreasing myMat = some res)
    (hna : masplit myMat delim count record sort decreasing = naMat) :
    ∃ cell : Option String, myMat = [[cell]] ∧ res = [[none]] := by
  have hm := masplit_eq_of_run hr hrun
  rw [hm] at hna
  obtain ⟨hlen, hget⟩ := gridResults_shape hrun
  rw [hna] at hlen hget
  have hlen1 : myMat.length = 1 := by simpa [naMat] using hlen.symm
  obtain ⟨row, hrow⟩ := List.length_eq_one.mp hlen1
  subst hrow
  have h2 := hget 0 (by simp [naMat]) (by simp)
  simp only [naMat, List.get_cons_zero, List.length_cons, List.length_nil] at h2
  obtain ⟨cell, hcell⟩ := List.length_eq_one.mp h2.symm
  have hrow2 : row = [cell] := by simpa using hcell
  exact ⟨cell, by rw [hrow2], hna⟩

/-- Witness for the amended C9 at the colliding 1x1 Missing input. -/
theorem sentinel_collision_only_one_by_one_witness :
    ∃ cell : Option String, [[(none : Option String)]] = [[cell]] ∧
      ([[none]] : List (List (Option ℚ))) = [[none]] :=
  sentinel_collision_only_one_by_one [[none]] "," 0 1 1 1 [[none]]
    (by decide) (by decide) (by decide)
